import Mathlib

/-!
Verification of the recording session lifecycle manager of the
playwright-mcp repository.

The embedding translates the two core source modules:

* `src/runArtifacts.ts` — `startRun` (path derivation for one run) and
  `finishRun` (the ordered finalize sequence: best-effort video
  reconciliation, trace stop, context close, manifest construction);
* `src/sessionTools.ts` — the process-wide `sessionManager` holding the
  single `currentSession` slot plus the append-only `sessionHistory`, and
  the five operations `startRecordingSession`, `stopRecordingSession`,
  `getRecordingStatus`, `listRecordings`, `getRecordingArtifacts`.

Interactions with the browser collaborator and the filesystem are
modelled by explicit environment records (`StartEnv`, `FinishEnv`,
`StopEnv`) that say what each external call does (succeeds, throws with
a message, reports a video handle, ...).  Timestamps are naturals
standing for millisecond clock readings; every `new Date()` in the
source corresponds to one environment field.
-/

namespace PlaywrightRec

/-! ### JS string replace (first occurrence), as used for the public URLs -/

/-- Whether the second character list starts with the first one. -/
def leadsWith : List Char → List Char → Bool
  | [], _ => true
  | _ :: _, [] => false
  | p :: ps, c :: cs => p == c && leadsWith ps cs

/-- Replace the first occurrence of `pat` by `rep`, the semantics of the JS
`String.prototype.replace` with a plain string pattern. -/
def replaceFirstChars (pat rep : List Char) : List Char → List Char
  | [] => if leadsWith pat [] then rep else []
  | c :: cs =>
    if leadsWith pat (c :: cs) then rep ++ List.drop pat.length (c :: cs)
    else c :: replaceFirstChars pat rep cs

/-- JS `s.replace(pat, rep)` on strings: only the first occurrence is replaced. -/
def jsReplaceFirst (s pat rep : String) : String :=
  String.mk (replaceFirstChars pat.data rep.data s.data)

/-! ### Embedding of src/runArtifacts.ts -/

/-- The `RunCtx` record of `runArtifacts.ts`, without the opaque browser
context and page handles (those live in the environment records). -/
structure RunCtx where
  baseDir : String
  videoPath : Option String
  harPath : String
  tracePath : String
deriving Repr, DecidableEq

/-- `startRun`: derives `baseDir = /data/<projectId>/<runId>` and the HAR and
trace target paths; `videoPath` is not fixed yet. -/
def startRun (projectId runId : String) : RunCtx :=
  let baseDir := "/data/" ++ projectId ++ "/" ++ runId
  { baseDir := baseDir,
    videoPath := none,
    harPath := baseDir ++ "/network.har",
    tracePath := baseDir ++ "/trace.zip" }

/-- The artifact manifest returned by `finishRun`. -/
structure Artifacts where
  videoPath : Option String
  harPath : String
  tracePath : String
  publicVideoUrl : Option String
  publicHarUrl : String
  publicTraceUrl : String
deriving Repr, DecidableEq

/-- What the collaborator does during one `finishRun` call.
`hasVideo`: `rc.page.video()` returns a handle; `videoPathThrows`:
`v.path()` rejects (caught by the surrounding try); `renameOk`, `copyOk`:
whether `fs.rename` / `fs.copyFile` succeed (their failures are caught);
`traceStopErr` / `closeErr`: `some msg` when `tracing.stop` / `context.close`
reject with message `msg`. -/
structure FinishEnv where
  hasVideo : Bool
  videoPathThrows : Bool
  renameOk : Bool
  copyOk : Bool
  traceStopErr : Option String
  closeErr : Option String
deriving Repr, DecidableEq

/-- The public URL of a local path: the literal first-occurrence replacement
of `/data/` by the public base, exactly as in the source. -/
def toPublicUrl (p : String) : String :=
  jsReplaceFirst p "/data/" "https://videos.qabot.app/"

/-- `finishRun`: best-effort video reconciliation (all of its errors are
swallowed; note the source assigns `rc.videoPath = target` whenever the
video handle resolved a path, regardless of the rename/copy outcome), then
trace stop and context close (both of which propagate failure), then the
manifest.  The possibly mutated `RunCtx` is returned alongside, because the
source mutates `rc` in place even when a later step throws. -/
def finishRun (rc : RunCtx) (env : FinishEnv) : Except String Artifacts × RunCtx :=
  let rc1 :=
    if env.hasVideo && !env.videoPathThrows then
      { rc with videoPath := some (rc.baseDir ++ "/video.webm") }
    else rc
  match env.traceStopErr with
  | some e => (Except.error e, rc1)
  | none =>
    match env.closeErr with
    | some e => (Except.error e, rc1)
    | none =>
      (Except.ok
        { videoPath := rc1.videoPath,
          harPath := rc1.harPath,
          tracePath := rc1.tracePath,
          publicVideoUrl := Option.map toPublicUrl rc1.videoPath,
          publicHarUrl := toPublicUrl rc1.harPath,
          publicTraceUrl := toPublicUrl rc1.tracePath }, rc1)

/-! ### Embedding of src/sessionTools.ts -/

/-- The `RecordingSession` record held in the active slot. -/
structure RecordingSession where
  projectId : String
  runId : String
  startTime : Nat
  runCtx : RunCtx
deriving Repr, DecidableEq

/-- One entry of `sessionManager.sessionHistory`. -/
structure HistoryEntry where
  projectId : String
  runId : String
  startTime : Nat
  endTime : Option Nat
  artifacts : Option Artifacts
deriving Repr, DecidableEq

/-- The process-wide `sessionManager` state. -/
structure SessionManager where
  currentSession : Option RecordingSession
  sessionHistory : List HistoryEntry
deriving Repr, DecidableEq

/-- The module-initialization state: no active session, empty history. -/
def initialManager : SessionManager :=
  { currentSession := none, sessionHistory := [] }

/-- Environment of one `startRecordingSession` call: the generated
`run_<millis>_<random>` identifier, the two `new Date()` readings, and
whether `startRun` rejects (with which message). -/
structure StartEnv where
  genId : String
  nowSession : Nat
  nowHistory : Nat
  startErr : Option String
deriving Repr, DecidableEq

/-- Result shape of `startRecordingSession`. -/
structure StartResult where
  success : Bool
  projectId : String
  runId : String
  message : String
deriving Repr, DecidableEq

/-- `runId || generated`: the caller-supplied id unless it is absent or the
empty string (falsy in JS), in which case the generated one is used. -/
def effRunId (runId : Option String) (env : StartEnv) : String :=
  match runId with
  | some r => if r = "" then env.genId else r
  | none => env.genId

/-- `startRecordingSession`: refuse when a session is active; otherwise run
`startRun` and, on success, fill the active slot and append a fresh history
entry (no `endTime`, no `artifacts`). -/
def startRecordingSession (s : SessionManager) (projectId : String)
    (runId : Option String) (env : StartEnv) : SessionManager × StartResult :=
  match s.currentSession with
  | some cur =>
    (s, { success := false, projectId := projectId, runId := runId.getD "",
          message := "Recording session already active: " ++ cur.projectId ++ "/" ++ cur.runId })
  | none =>
    let finalRunId := effRunId runId env
    match env.startErr with
    | some e =>
      (s, { success := false, projectId := projectId, runId := finalRunId,
            message := "Failed to start recording session: " ++ e })
    | none =>
      let rc := startRun projectId finalRunId
      ({ currentSession := some
           { projectId := projectId, runId := finalRunId,
             startTime := env.nowSession, runCtx := rc },
         sessionHistory := s.sessionHistory ++
           [{ projectId := projectId, runId := finalRunId,
              startTime := env.nowHistory, endTime := none, artifacts := none }] },
       { success := true, projectId := projectId, runId := finalRunId,
         message := "Recording session started: " ++ projectId ++ "/" ++ finalRunId })

/-- Environment of one `stopRecordingSession` call: the `finishRun`
environment plus the `new Date()` written to `endTime`. -/
structure StopEnv where
  fin : FinishEnv
  now : Nat
deriving Repr, DecidableEq

/-- Result shape of `stopRecordingSession`. -/
structure StopResult where
  success : Bool
  projectId : Option String
  runId : Option String
  artifacts : Option Artifacts
  message : String
deriving Repr, DecidableEq

/-- The history update of a successful stop: `Array.prototype.find` locates
the first entry with the given identity and that entry is mutated in place,
receiving `endTime` and `artifacts`; when no entry matches nothing changes. -/
def updateFirstEntry (p r : String) (now : Nat) (a : Artifacts) :
    List HistoryEntry → List HistoryEntry
  | [] => []
  | e :: t =>
    if e.projectId = p ∧ e.runId = r then
      { e with endTime := some now, artifacts := some a } :: t
    else
      e :: updateFirstEntry p r now a t

/-- `stopRecordingSession`: refuse in the idle state; otherwise run
`finishRun` — on success write `endTime`/`artifacts` onto the first matching
history entry and clear the active slot, on failure keep the (possibly
mutated) active session and report the error. -/
def stopRecordingSession (s : SessionManager) (env : StopEnv) :
    SessionManager × StopResult :=
  match s.currentSession with
  | none =>
    (s, { success := false, projectId := none, runId := none, artifacts := none,
          message := "No active recording session to stop" })
  | some cur =>
    match finishRun cur.runCtx env.fin with
    | (Except.ok a, _) =>
      ({ currentSession := none,
         sessionHistory := updateFirstEntry cur.projectId cur.runId env.now a s.sessionHistory },
       { success := true, projectId := some cur.projectId, runId := some cur.runId,
         artifacts := some a,
         message := "Recording session stopped: " ++ cur.projectId ++ "/" ++ cur.runId })
    | (Except.error e, rc1) =>
      ({ s with currentSession := some { cur with runCtx := rc1 } },
       { success := false, projectId := some cur.projectId, runId := some cur.runId,
         artifacts := none,
         message := "Failed to stop recording session: " ++ e })

/-- Read-time status of a listed entry. -/
inductive RecStatus where
  | active
  | completed
deriving Repr, DecidableEq

/-- One element of the view returned by `listRecordings`. -/
structure RecordingView where
  projectId : String
  runId : String
  startTime : Nat
  endTime : Option Nat
  duration : Option Int
  status : RecStatus
  artifacts : Option Artifacts
deriving Repr, DecidableEq

/-- Result shape of `listRecordings`. -/
structure ListResult where
  recordings : List RecordingView
  total : Nat
deriving Repr, DecidableEq

/-- `currentSession?.projectId === p && currentSession?.runId === r`. -/
def matchesCurrent (s : SessionManager) (p r : String) : Bool :=
  match s.currentSession with
  | some cur => cur.projectId == p && cur.runId == r
  | none => false

/-- The per-entry view computation of `listRecordings`: `status` and
`duration` are derived at read time from the entry and the active slot. -/
def toViewEntry (s : SessionManager) (now : Nat) (e : HistoryEntry) : RecordingView :=
  { projectId := e.projectId, runId := e.runId, startTime := e.startTime,
    endTime := e.endTime,
    duration :=
      match e.endTime with
      | some t => some ((t : Int) - (e.startTime : Int))
      | none =>
        if matchesCurrent s e.projectId e.runId then
          some ((now : Int) - (e.startTime : Int))
        else none,
    status :=
      if matchesCurrent s e.projectId e.runId then RecStatus.active
      else RecStatus.completed,
    artifacts := e.artifacts }

/-- JS `arr.slice(-limit)`: the last `limit` elements; for `limit = 0` the
whole array (`-0` is `0`). -/
def jsSliceLast (limit : Nat) (l : List α) : List α :=
  if limit = 0 then l else List.drop (l.length - limit) l

/-- `listRecordings`: `sessionHistory.slice(-limit).map(...).reverse()`,
with `total` the full history length. -/
def listRecordings (s : SessionManager) (limit : Nat) (now : Nat) : ListResult :=
  { recordings := (List.map (toViewEntry s now) (jsSliceLast limit s.sessionHistory)).reverse,
    total := s.sessionHistory.length }

/-- Result shape of `getRecordingArtifacts`. -/
structure ArtifactsResult where
  success : Bool
  artifacts : Option Artifacts
  message : String
deriving Repr, DecidableEq

/-- `getRecordingArtifacts`: active-session check first, then the
first-match history lookup, then the artifacts-present check. -/
def getRecordingArtifacts (s : SessionManager) (p r : String) : ArtifactsResult :=
  if matchesCurrent s p r then
    { success := false, artifacts := none,
      message := "Recording session is still active. Stop the session to access artifacts." }
  else
    match List.find? (fun e => e.projectId == p && e.runId == r) s.sessionHistory with
    | none =>
      { success := false, artifacts := none,
        message := "Recording session not found: " ++ p ++ "/" ++ r }
    | some e =>
      match e.artifacts with
      | none =>
        { success := false, artifacts := none,
          message := "Artifacts not available for session: " ++ p ++ "/" ++ r }
      | some a =>
        { success := true, artifacts := some a,
          message := "Artifacts retrieved for session: " ++ p ++ "/" ++ r }

/-! ### Call sequences -/

/-- One external call, together with its environment. -/
inductive Op where
  | start (projectId : String) (runId : Option String) (env : StartEnv)
  | stop (env : StopEnv)
  | list (limit : Nat) (now : Nat)
  | getArtifacts (projectId runId : String)
deriving Repr, DecidableEq

/-- State transition of one call (`list` and `getArtifacts` are read-only). -/
def step (s : SessionManager) : Op → SessionManager
  | Op.start p r env => (startRecordingSession s p r env).1
  | Op.stop env => (stopRecordingSession s env).1
  | Op.list _ _ => s
  | Op.getArtifacts _ _ => s

/-- The state after a sequence of calls against a fresh manager. -/
def runOps (ops : List Op) : SessionManager :=
  List.foldl step initialManager ops

/-- The identity of a history entry. -/
def entryId (e : HistoryEntry) : String × String := (e.projectId, e.runId)

/-- The identities of all history entries, in append order. -/
def idsOf (s : SessionManager) : List (String × String) :=
  s.sessionHistory.map entryId

/-- The identity a start call would record, were it to succeed. -/
def opStartId : Op → Option (String × String)
  | Op.start p r env => some (p, effRunId r env)
  | _ => none

/-- The identities of all start calls of a sequence. -/
def traceIds (ops : List Op) : List (String × String) :=
  ops.filterMap opStartId

/-- Every entry that is preceded by an entry of the same identity still has
no `endTime` and no `artifacts`. -/
def laterDupFree : List HistoryEntry → Bool
  | [] => true
  | e :: t =>
    t.all (fun x =>
      if x.projectId = e.projectId ∧ x.runId = e.runId then
        x.endTime == none && x.artifacts == none
      else true)
    && laterDupFree t

/-! ### Concrete environments and traces used for evaluation -/

/-- A successful start environment. -/
def envStartA : StartEnv :=
  { genId := "g1", nowSession := 1, nowHistory := 2, startErr := none }

/-- A second successful start environment, later in time. -/
def envStartB : StartEnv :=
  { genId := "g3", nowSession := 6, nowHistory := 7, startErr := none }

/-- A finalize in which every collaborator call succeeds and a video track
is present. -/
def finishEnvOk : FinishEnv :=
  { hasVideo := true, videoPathThrows := false, renameOk := true, copyOk := true,
    traceStopErr := none, closeErr := none }

/-- A finalize in which the page reports no video track. -/
def finishEnvNoVideo : FinishEnv :=
  { finishEnvOk with hasVideo := false }

/-- A successful stop environment. -/
def stopEnvOk : StopEnv := { fin := finishEnvOk, now := 5 }

/-- A stop environment whose trace stop rejects. -/
def stopEnvFail : StopEnv :=
  { fin := { finishEnvOk with traceStopErr := some "trace failed" }, now := 5 }

/-- The manager right after one successful `start("p", "r")` on a fresh state. -/
def mgrActive : SessionManager :=
  (startRecordingSession initialManager "p" (some "r") envStartA).1

/-- Start `p/r`, stop it, start `p/r` again: the identity is reused across
two lifecycles. -/
def dupOps : List Op :=
  [Op.start "p" (some "r") envStartA, Op.stop stopEnvOk,
   Op.start "p" (some "r") envStartB]

/-! ### C3: start while a session is active -/

/-- C3: whenever a session is active, `startRecordingSession` (with any
projectId and any runId) returns `success:false` with a message naming the
active `projectId/runId` and leaves the manager state — the active session
and every history entry — exactly as before the call. -/
theorem start_while_active_rejected (s : SessionManager) (p : String)
    (r : Option String) (env : StartEnv) (cur : RecordingSession)
    (h : s.currentSession = some cur) :
    startRecordingSession s p r env =
      (s, { success := false, projectId := p, runId := r.getD "",
            message := "Recording session already active: " ++
              cur.projectId ++ "/" ++ cur.runId }) := by
  simp [startRecordingSession, h]

theorem start_while_active_rejected_witness :
    startRecordingSession mgrActive "q" none envStartB =
      (mgrActive,
       { success := false, projectId := "q", runId := "",
         message := "Recording session already active: " ++ "p" ++ "/" ++ "r" }) :=
  start_while_active_rejected mgrActive "q" none envStartB
    { projectId := "p", runId := "r", startTime := 1, runCtx := startRun "p" "r" }
    (by decide)

/-! ### C4: stop whose finalize throws -/

/-- C4: if `finishRun` throws during stop (trace stop or context close
rejects), then `stopRecordingSession` returns `success:false` carrying the
session's `projectId` and `runId`, the active slot is not cleared (the
manager stays in the recording state with the same session identity, so
stop can be retried), and the history is exactly as before — no entry
receives `endTime` or `artifacts` from the failed call. -/
theorem stop_failure_keeps_recording (s : SessionManager) (env : StopEnv)
    (cur : RecordingSession) (h : s.currentSession = some cur)
    (hfail : env.fin.traceStopErr ≠ none ∨ env.fin.closeErr ≠ none) :
    (stopRecordingSession s env).2.success = false ∧
    (stopRecordingSession s env).2.projectId = some cur.projectId ∧
    (stopRecordingSession s env).2.runId = some cur.runId ∧
    (∃ cur2, (stopRecordingSession s env).1.currentSession = some cur2 ∧
      cur2.projectId = cur.projectId ∧ cur2.runId = cur.runId ∧
      cur2.startTime = cur.startTime) ∧
    (stopRecordingSession s env).1.sessionHistory = s.sessionHistory := by
  cases ht : env.fin.traceStopErr with
  | some e => simp [stopRecordingSession, finishRun, h, ht]
  | none =>
    cases hc : env.fin.closeErr with
    | some e => simp [stopRecordingSession, finishRun, h, ht, hc]
    | none => cases hfail with
      | inl hx => exact absurd ht hx
      | inr hx => exact absurd hc hx

theorem stop_failure_keeps_recording_witness :
    (stopRecordingSession mgrActive stopEnvFail).2.success = false ∧
    (stopRecordingSession mgrActive stopEnvFail).2.projectId = some "p" ∧
    (stopRecordingSession mgrActive stopEnvFail).2.runId = some "r" ∧
    (∃ cur2, (stopRecordingSession mgrActive stopEnvFail).1.currentSession = some cur2 ∧
      cur2.projectId = "p" ∧ cur2.runId = "r" ∧ cur2.startTime = 1) ∧
    (stopRecordingSession mgrActive stopEnvFail).1.sessionHistory =
      mgrActive.sessionHistory :=
  stop_failure_keeps_recording mgrActive stopEnvFail
    { projectId := "p", runId := "r", startTime := 1, runCtx := startRun "p" "r" }
    (by decide) (Or.inl (by decide))

/-! ### C9: stop with no active session -/

/-- C9 (amended): calling stop in the idle state returns `success:false`
with the message `"No active recording session to stop"` (not the literal
`"no active session"` of the claim) and mutates nothing: the returned state
is the input state, so the active slot stays empty and no history entry
changes. -/
theorem stop_idle_noop (s : SessionManager) (env : StopEnv)
    (h : s.currentSession = none) :
    stopRecordingSession s env =
      (s, { success := false, projectId := none, runId := none, artifacts := none,
            message := "No active recording session to stop" }) := by
  simp [stopRecordingSession, h]

theorem stop_idle_noop_witness :
    stopRecordingSession initialManager stopEnvOk =
      (initialManager,
       { success := false, projectId := none, runId := none, artifacts := none,
         message := "No active recording session to stop" }) :=
  stop_idle_noop initialManager stopEnvOk rfl

/-- C9 (counterexample to the literal message): on the idle state the stop
result is `success:false` with message `"No active recording session to
stop"`, which is not the claim's literal `"no active session"`. -/
theorem stop_idle_message_counterexample :
    (stopRecordingSession initialManager stopEnvOk).2.success = false ∧
    (stopRecordingSession initialManager stopEnvOk).2.message =
      "No active recording session to stop" ∧
    (stopRecordingSession initialManager stopEnvOk).2.message ≠
      "no active session" := by
  decide

/-! ### C5: getArtifacts case analysis -/

/-- C5: `getRecordingArtifacts` resolves its cases in order: it fails with
the session-active message when the identity matches the current session
regardless of history; otherwise fails with the not-found message when no
history entry matches; otherwise fails with the not-available message when
the matched entry has no artifacts; otherwise succeeds with the stored
manifest.  It never mutates state. -/
theorem getArtifacts_cases (s : SessionManager) (p r : String) :
    (matchesCurrent s p r = true →
      getRecordingArtifacts s p r =
        { success := false, artifacts := none,
          message := "Recording session is still active. Stop the session to access artifacts." }) ∧
    (matchesCurrent s p r = false →
      List.find? (fun e => e.projectId == p && e.runId == r) s.sessionHistory = none →
      getRecordingArtifacts s p r =
        { success := false, artifacts := none,
          message := "Recording session not found: " ++ p ++ "/" ++ r }) ∧
    (∀ e, matchesCurrent s p r = false →
      List.find? (fun x => x.projectId == p && x.runId == r) s.sessionHistory = some e →
      e.artifacts = none →
      getRecordingArtifacts s p r =
        { success := false, artifacts := none,
          message := "Artifacts not available for session: " ++ p ++ "/" ++ r }) ∧
    (∀ e a, matchesCurrent s p r = false →
      List.find? (fun x => x.projectId == p && x.runId == r) s.sessionHistory = some e →
      e.artifacts = some a →
      getRecordingArtifacts s p r =
        { success := true, artifacts := some a,
          message := "Artifacts retrieved for session: " ++ p ++ "/" ++ r }) ∧
    step s (Op.getArtifacts p r) = s := by
  refine ⟨fun hm => ?_, fun hm hf => ?_, fun e hm hf ha => ?_, fun e a hm hf ha => ?_, rfl⟩
  · simp [getRecordingArtifacts, hm]
  · simp [getRecordingArtifacts, hm, hf]
  · simp [getRecordingArtifacts, hm, hf, ha]
  · simp [getRecordingArtifacts, hm, hf, ha]

theorem getArtifacts_cases_witness :
    getRecordingArtifacts mgrActive "p" "r" =
      { success := false, artifacts := none,
        message := "Recording session is still active. Stop the session to access artifacts." } :=
  (getArtifacts_cases mgrActive "p" "r").1 (by decide)

/-! ### URL derivation lemmas -/

theorem leadsWith_append (p t : List Char) : leadsWith p (p ++ t) = true := by
  induction p with
  | nil => rfl
  | cons c cs ih => simp [leadsWith, ih]

theorem replaceFirstChars_leading (c : Char) (cs rep t : List Char) :
    replaceFirstChars (c :: cs) rep (c :: (cs ++ t)) = rep ++ t := by
  have h2 : leadsWith (c :: cs) (c :: (cs ++ t)) = true := leadsWith_append (c :: cs) t
  simp [replaceFirstChars, h2, List.drop_left]

/-- Replacing the leading `/data/` of a storage path yields the public URL. -/
theorem toPublicUrl_concat (t : String) :
    toPublicUrl ("/data/" ++ t) = "https://videos.qabot.app/" ++ t := by
  cases t with
  | mk l =>
    show String.mk (replaceFirstChars ("/data/").data ("https://videos.qabot.app/").data
      (("/data/" ++ String.mk l).data)) = "https://videos.qabot.app/" ++ String.mk l
    rw [String.data_append]
    show String.mk (replaceFirstChars (List.cons '/' ['d', 'a', 't', 'a', '/'])
      ("https://videos.qabot.app/").data
      (List.cons '/' (['d', 'a', 't', 'a', '/'] ++ l))) = _
    rw [replaceFirstChars_leading]
    rfl

/-- The public URL of any file directly below `baseDir(p, r)`. -/
theorem toPublicUrl_baseDir (p r suff : String) :
    toPublicUrl ("/data/" ++ p ++ "/" ++ r ++ suff) =
      "https://videos.qabot.app/" ++ p ++ "/" ++ r ++ suff := by
  have h1 : "/data/" ++ p ++ "/" ++ r ++ suff = "/data/" ++ (p ++ "/" ++ r ++ suff) := by
    simp [String.append_assoc]
  rw [h1, toPublicUrl_concat]
  simp [String.append_assoc]

/-! ### C8: finalize with no video track -/

/-- C8: when the page reports no video track, `finishRun` (with trace stop
and close succeeding) still returns a manifest whose `harPath`, `tracePath`,
`publicHarUrl` and `publicTraceUrl` are populated from the run context while
`videoPath` and `publicVideoUrl` are absent; `finishRun` succeeds exactly
when trace stop and close succeed, independently of every video-step
outcome (video-reconciliation failures are swallowed); and the overall stop
still succeeds in the no-video case. -/
theorem finishRun_no_video (rc : RunCtx) (env : FinishEnv)
    (hv : rc.videoPath = none) :
    ((∃ a, (finishRun rc env).1 = Except.ok a) ↔
      env.traceStopErr = none ∧ env.closeErr = none) ∧
    (env.hasVideo = false → env.traceStopErr = none → env.closeErr = none →
      (finishRun rc env).1 = Except.ok
        { videoPath := none, harPath := rc.harPath, tracePath := rc.tracePath,
          publicVideoUrl := none, publicHarUrl := toPublicUrl rc.harPath,
          publicTraceUrl := toPublicUrl rc.tracePath }) ∧
    (∀ s cur senv, s.currentSession = some cur →
      senv.fin.hasVideo = false →
      senv.fin.traceStopErr = none → senv.fin.closeErr = none →
      (stopRecordingSession s senv).2.success = true) := by
  refine ⟨?_, ?_, ?_⟩
  · cases ht : env.traceStopErr with
    | some e => simp [finishRun, ht]
    | none => cases hc : env.closeErr with
      | some e => simp [finishRun, ht, hc]
      | none => simp [finishRun, ht, hc]
  · intro hvid ht hc
    simp [finishRun, ht, hc, hvid, hv]
  · intro s cur senv hcur hvid ht hc
    simp [stopRecordingSession, hcur, finishRun, ht, hc]

theorem finishRun_no_video_witness :
    ((∃ a, (finishRun (startRun "p" "r") finishEnvNoVideo).1 = Except.ok a) ↔
      finishEnvNoVideo.traceStopErr = none ∧ finishEnvNoVideo.closeErr = none) ∧
    (finishEnvNoVideo.hasVideo = false → finishEnvNoVideo.traceStopErr = none →
      finishEnvNoVideo.closeErr = none →
      (finishRun (startRun "p" "r") finishEnvNoVideo).1 = Except.ok
        { videoPath := none, harPath := (startRun "p" "r").harPath,
          tracePath := (startRun "p" "r").tracePath,
          publicVideoUrl := none,
          publicHarUrl := toPublicUrl (startRun "p" "r").harPath,
          publicTraceUrl := toPublicUrl (startRun "p" "r").tracePath }) ∧
    (∀ s cur senv, s.currentSession = some cur →
      senv.fin.hasVideo = false →
      senv.fin.traceStopErr = none → senv.fin.closeErr = none →
      (stopRecordingSession s senv).2.success = true) :=
  finishRun_no_video (startRun "p" "r") finishEnvNoVideo (by decide)

/-! ### C6: start, stop, getArtifacts returns the three public URLs -/

theorem find?_updateFirstEntry (p r : String) (n : Nat) (a : Artifacts)
    (l : List HistoryEntry) :
    List.find? (fun x => x.projectId == p && x.runId == r) (updateFirstEntry p r n a l) =
      Option.map (fun e => { e with endTime := some n, artifacts := some a })
        (List.find? (fun x => x.projectId == p && x.runId == r) l) := by
  induction l with
  | nil => rfl
  | cons e t ih =>
    cases hb : (e.projectId == p && e.runId == r) with
    | true =>
      have h : e.projectId = p ∧ e.runId = r := by simpa using hb
      simp [updateFirstEntry, h, List.find?_cons, hb]
    | false =>
      have h : ¬(e.projectId = p ∧ e.runId = r) := by simpa using hb
      simp [updateFirstEntry, h, List.find?_cons, hb, ih]

theorem find?_append_some {α : Type} (pred : α → Bool) (l : List α) (x : α)
    (hx : pred x = true) :
    ∃ e, List.find? pred (l ++ [x]) = some e := by
  induction l with
  | nil => exact ⟨x, by simp [List.find?, hx]⟩
  | cons a t ih =>
    cases ha : pred a with
    | true => exact ⟨a, by simp [List.find?_cons, ha]⟩
    | false =>
      obtain ⟨e, he⟩ := ih
      exact ⟨e, by simp [List.find?_cons, ha, he]⟩

/-- C6 (amended): from any idle state, `start(p, r)` (with a non-empty
caller-supplied `r`) followed by a stop whose finalize succeeds *and whose
page resolved a video path* followed by `getArtifacts(p, r)` returns
`success:true` with all three public URL fields populated and equal to the
storage paths with the `/data/` root replaced by the public base. -/
theorem start_stop_getArtifacts_urls (s : SessionManager) (p r : String)
    (envS : StartEnv) (envT : StopEnv)
    (hidle : s.currentSession = none) (hr : r ≠ "")
    (hS : envS.startErr = none)
    (hvid : envT.fin.hasVideo = true) (hvp : envT.fin.videoPathThrows = false)
    (ht : envT.fin.traceStopErr = none) (hc : envT.fin.closeErr = none) :
    (stopRecordingSession (startRecordingSession s p (some r) envS).1 envT).2.success = true ∧
    getRecordingArtifacts
        (stopRecordingSession (startRecordingSession s p (some r) envS).1 envT).1 p r =
      { success := true,
        artifacts := some
          { videoPath := some ("/data/" ++ p ++ "/" ++ r ++ "/video.webm"),
            harPath := "/data/" ++ p ++ "/" ++ r ++ "/network.har",
            tracePath := "/data/" ++ p ++ "/" ++ r ++ "/trace.zip",
            publicVideoUrl :=
              some ("https://videos.qabot.app/" ++ p ++ "/" ++ r ++ "/video.webm"),
            publicHarUrl := "https://videos.qabot.app/" ++ p ++ "/" ++ r ++ "/network.har",
            publicTraceUrl := "https://videos.qabot.app/" ++ p ++ "/" ++ r ++ "/trace.zip" },
        message := "Artifacts retrieved for session: " ++ p ++ "/" ++ r } := by
  have hEff : effRunId (some r) envS = r := by simp [effRunId, hr]
  have hs1 : (startRecordingSession s p (some r) envS).1 =
      { currentSession := some
          { projectId := p, runId := r, startTime := envS.nowSession,
            runCtx := startRun p r },
        sessionHistory := s.sessionHistory ++
          [{ projectId := p, runId := r, startTime := envS.nowHistory,
             endTime := none, artifacts := none }] } := by
    simp [startRecordingSession, hidle, hS, hEff]
  have hfin : finishRun (startRun p r) envT.fin =
      (Except.ok
        { videoPath := some ("/data/" ++ p ++ "/" ++ r ++ "/video.webm"),
          harPath := "/data/" ++ p ++ "/" ++ r ++ "/network.har",
          tracePath := "/data/" ++ p ++ "/" ++ r ++ "/trace.zip",
          publicVideoUrl :=
            some (toPublicUrl ("/data/" ++ p ++ "/" ++ r ++ "/video.webm")),
          publicHarUrl := toPublicUrl ("/data/" ++ p ++ "/" ++ r ++ "/network.har"),
          publicTraceUrl := toPublicUrl ("/data/" ++ p ++ "/" ++ r ++ "/trace.zip") },
       { baseDir := "/data/" ++ p ++ "/" ++ r,
         videoPath := some ("/data/" ++ p ++ "/" ++ r ++ "/video.webm"),
         harPath := "/data/" ++ p ++ "/" ++ r ++ "/network.har",
         tracePath := "/data/" ++ p ++ "/" ++ r ++ "/trace.zip" }) := by
    simp [finishRun, startRun, hvid, hvp, ht, hc]
  rw [hs1]
  rw [show (stopRecordingSession
      { currentSession := some
          { projectId := p, runId := r, startTime := envS.nowSession,
            runCtx := startRun p r },
        sessionHistory := s.sessionHistory ++
          [{ projectId := p, runId := r, startTime := envS.nowHistory,
             endTime := none, artifacts := none }] } envT) =
    ({ currentSession := none,
       sessionHistory := updateFirstEntry p r envT.now
         { videoPath := some ("/data/" ++ p ++ "/" ++ r ++ "/video.webm"),
           harPath := "/data/" ++ p ++ "/" ++ r ++ "/network.har",
           tracePath := "/data/" ++ p ++ "/" ++ r ++ "/trace.zip",
           publicVideoUrl :=
             some (toPublicUrl ("/data/" ++ p ++ "/" ++ r ++ "/video.webm")),
           publicHarUrl := toPublicUrl ("/data/" ++ p ++ "/" ++ r ++ "/network.har"),
           publicTraceUrl := toPublicUrl ("/data/" ++ p ++ "/" ++ r ++ "/trace.zip") }
         (s.sessionHistory ++
           [{ projectId := p, runId := r, startTime := envS.nowHistory,
              endTime := none, artifacts := none }]) },
     { success := true, projectId := some p, runId := some r,
       artifacts := some
         { videoPath := some ("/data/" ++ p ++ "/" ++ r ++ "/video.webm"),
           harPath := "/data/" ++ p ++ "/" ++ r ++ "/network.har",
           tracePath := "/data/" ++ p ++ "/" ++ r ++ "/trace.zip",
           publicVideoUrl :=
             some (toPublicUrl ("/data/" ++ p ++ "/" ++ r ++ "/video.webm")),
           publicHarUrl := toPublicUrl ("/data/" ++ p ++ "/" ++ r ++ "/network.har"),
           publicTraceUrl := toPublicUrl ("/data/" ++ p ++ "/" ++ r ++ "/trace.zip") },
       message := "Recording session stopped: " ++ p ++ "/" ++ r }) from by
    simp [stopRecordingSession, hfin]]
  refine ⟨rfl, ?_⟩
  obtain ⟨e0, he0⟩ := find?_append_some
    (fun x => x.projectId == p && x.runId == r) s.sessionHistory
    { projectId := p, runId := r, startTime := envS.nowHistory,
      endTime := none, artifacts := none } (by simp)
  rw [getRecordingArtifacts]
  rw [if_neg (by simp [matchesCurrent])]
  rw [find?_updateFirstEntry, he0]
  simp [toPublicUrl_baseDir]

theorem start_stop_getArtifacts_urls_witness :
    (stopRecordingSession
        (startRecordingSession initialManager "p" (some "r") envStartA).1
        stopEnvOk).2.success = true ∧
    getRecordingArtifacts
        (stopRecordingSession
          (startRecordingSession initialManager "p" (some "r") envStartA).1
          stopEnvOk).1 "p" "r" =
      { success := true,
        artifacts := some
          { videoPath := some ("/data/" ++ "p" ++ "/" ++ "r" ++ "/video.webm"),
            harPath := "/data/" ++ "p" ++ "/" ++ "r" ++ "/network.har",
            tracePath := "/data/" ++ "p" ++ "/" ++ "r" ++ "/trace.zip",
            publicVideoUrl :=
              some ("https://videos.qabot.app/" ++ "p" ++ "/" ++ "r" ++ "/video.webm"),
            publicHarUrl := "https://videos.qabot.app/" ++ "p" ++ "/" ++ "r" ++ "/network.har",
            publicTraceUrl := "https://videos.qabot.app/" ++ "p" ++ "/" ++ "r" ++ "/trace.zip" },
        message := "Artifacts retrieved for session: " ++ "p" ++ "/" ++ "r" } :=
  start_stop_getArtifacts_urls initialManager "p" "r" envStartA stopEnvOk
    rfl (by decide) rfl rfl rfl rfl rfl

/-- C6 (counterexample to the unconditional claim): when the page reports
no video track, `start("p","r")` followed by a *successful* stop leaves
`getArtifacts("p","r")` returning `success:true` whose manifest has
`publicVideoUrl` absent, contradicting the claim that all three URL fields
are populated after every successful stop; and for the runId `""` (falsy
in JS, so replaced by a generated id) the final `getArtifacts` does not
even succeed. -/
theorem start_stop_getArtifacts_urls_counterexample :
    (stopRecordingSession
        (startRecordingSession initialManager "p" (some "r") envStartA).1
        { fin := finishEnvNoVideo, now := 5 }).2.success = true ∧
    (getRecordingArtifacts
        (stopRecordingSession
          (startRecordingSession initialManager "p" (some "r") envStartA).1
          { fin := finishEnvNoVideo, now := 5 }).1 "p" "r").success = true ∧
    Option.map Artifacts.publicVideoUrl
      (getRecordingArtifacts
        (stopRecordingSession
          (startRecordingSession initialManager "p" (some "r") envStartA).1
          { fin := finishEnvNoVideo, now := 5 }).1 "p" "r").artifacts = some none ∧
    (stopRecordingSession
        (startRecordingSession initialManager "p" (some "") envStartA).1
        stopEnvOk).2.success = true ∧
    (getRecordingArtifacts
        (stopRecordingSession
          (startRecordingSession initialManager "p" (some "") envStartA).1
          stopEnvOk).1 "p" "").success = false := by
  decide

/-! ### History identity machinery -/

/-- A start trace with no identity reuse. -/
def distinctOps : List Op :=
  [Op.start "p" (some "r") envStartA, Op.stop stopEnvOk,
   Op.start "p" (some "r2") envStartB]

theorem updateFirstEntry_ids (p r : String) (n : Nat) (a : Artifacts)
    (l : List HistoryEntry) :
    (updateFirstEntry p r n a l).map entryId = l.map entryId := by
  induction l with
  | nil => rfl
  | cons e t ih =>
    by_cases h : e.projectId = p ∧ e.runId = r
    · simp [updateFirstEntry, h, entryId]
    · simp [updateFirstEntry, h, ih]

theorem updateFirstEntry_keys (p r : String) (n : Nat) (a : Artifacts)
    (l : List HistoryEntry) :
    (updateFirstEntry p r n a l).map (fun e => (e.projectId, e.runId, e.startTime)) =
      l.map (fun e => (e.projectId, e.runId, e.startTime)) := by
  induction l with
  | nil => rfl
  | cons e t ih =>
    by_cases h : e.projectId = p ∧ e.runId = r
    · simp [updateFirstEntry, h]
    · simp [updateFirstEntry, h, ih]

theorem stop_ids (s : SessionManager) (env : StopEnv) :
    idsOf (stopRecordingSession s env).1 = idsOf s := by
  cases hc : s.currentSession with
  | none => simp [stopRecordingSession, hc]
  | some cur =>
    cases hf : finishRun cur.runCtx env.fin with
    | mk res rc1 =>
      cases res with
      | ok a => simp [stopRecordingSession, hc, hf, idsOf, updateFirstEntry_ids]
      | error e => simp [stopRecordingSession, hc, hf, idsOf]

theorem stop_keys (s : SessionManager) (env : StopEnv) :
    ((stopRecordingSession s env).1).sessionHistory.map
        (fun e => (e.projectId, e.runId, e.startTime)) =
      s.sessionHistory.map (fun e => (e.projectId, e.runId, e.startTime)) := by
  cases hc : s.currentSession with
  | none => simp [stopRecordingSession, hc]
  | some cur =>
    cases hf : finishRun cur.runCtx env.fin with
    | mk res rc1 =>
      cases res with
      | ok a => simp [stopRecordingSession, hc, hf, updateFirstEntry_keys]
      | error e => simp [stopRecordingSession, hc, hf]

theorem start_ids (s : SessionManager) (p : String) (r : Option String)
    (env : StartEnv) :
    idsOf (startRecordingSession s p r env).1 = idsOf s ∨
    idsOf (startRecordingSession s p r env).1 = idsOf s ++ [(p, effRunId r env)] := by
  cases hc : s.currentSession with
  | some cur => left; simp [startRecordingSession, hc]
  | none =>
    cases he : env.startErr with
    | some e => left; simp [startRecordingSession, hc, he]
    | none => right; simp [startRecordingSession, hc, he, idsOf, entryId]

theorem foldl_ids_sublist (ops : List Op) :
    ∀ s : SessionManager,
      List.Sublist (idsOf (List.foldl step s ops)) (idsOf s ++ traceIds ops) := by
  induction ops with
  | nil =>
    intro s
    simp [traceIds]
  | cons op rest ih =>
    intro s
    have h1 := ih (step s op)
    cases op with
    | start p r env =>
      have h2 : traceIds (Op.start p r env :: rest) =
          (p, effRunId r env) :: traceIds rest := by
        simp [traceIds, opStartId]
      rw [List.foldl_cons, h2]
      rcases start_ids s p r env with h3 | h3
      · have h4 : List.Sublist (idsOf (List.foldl step (step s (Op.start p r env)) rest))
            (idsOf s ++ traceIds rest) := by
          rw [show step s (Op.start p r env) = (startRecordingSession s p r env).1
            from rfl] at h1
          rw [h3] at h1
          exact h1
        exact h4.trans (List.Sublist.append_left
          (List.sublist_cons_self (p, effRunId r env) (traceIds rest)) (idsOf s))
      · have h4 : List.Sublist (idsOf (List.foldl step (step s (Op.start p r env)) rest))
            ((idsOf s ++ [(p, effRunId r env)]) ++ traceIds rest) := by
          rw [show step s (Op.start p r env) = (startRecordingSession s p r env).1
            from rfl] at h1
          rw [h3] at h1
          exact h1
        rw [List.append_assoc] at h4
        simpa using h4
    | stop env =>
      have h2 : traceIds (Op.stop env :: rest) = traceIds rest := by
        simp [traceIds, opStartId]
      rw [List.foldl_cons, h2]
      have h3 : idsOf (step s (Op.stop env)) = idsOf s := stop_ids s env
      rw [show step s (Op.stop env) = (stopRecordingSession s env).1 from rfl] at h1
      rw [stop_ids s env] at h1
      exact h1
    | list limit now =>
      have h2 : traceIds (Op.list limit now :: rest) = traceIds rest := by
        simp [traceIds, opStartId]
      rw [List.foldl_cons, h2]
      exact h1
    | getArtifacts p r =>
      have h2 : traceIds (Op.getArtifacts p r :: rest) = traceIds rest := by
        simp [traceIds, opStartId]
      rw [List.foldl_cons, h2]
      exact h1

theorem runOps_ids_sublist (ops : List Op) :
    List.Sublist (idsOf (runOps ops)) (traceIds ops) := by
  have h := foldl_ids_sublist ops initialManager
  simpa [runOps, idsOf, initialManager] using h

/-! ### C1: identity uniqueness within the history -/

/-- C1 (amended): if no two start calls of the sequence carry the same
effective `(projectId, runId)` (in particular whenever callers never reuse
a pair), then the `(projectId, runId)` pairs of the history entries are
pairwise distinct; and a stop never overwrites any entry's identity: the
`(projectId, runId, startTime)` triple of every history entry is unchanged
by `stopRecordingSession`, which only adds `endTime` and `artifacts` to the
entry it matches. -/
theorem history_ids_nodup_of_distinct_starts :
    (∀ ops : List Op, (traceIds ops).Nodup → (idsOf (runOps ops)).Nodup) ∧
    (∀ (s : SessionManager) (env : StopEnv),
      idsOf (stopRecordingSession s env).1 = idsOf s ∧
      ((stopRecordingSession s env).1).sessionHistory.map
          (fun e => (e.projectId, e.runId, e.startTime)) =
        s.sessionHistory.map (fun e => (e.projectId, e.runId, e.startTime))) :=
  ⟨fun ops h => List.Nodup.sublist (runOps_ids_sublist ops) h,
   fun s env => ⟨stop_ids s env, stop_keys s env⟩⟩

theorem history_ids_nodup_witness :
    (idsOf (runOps distinctOps)).Nodup ∧
    idsOf (stopRecordingSession (runOps distinctOps) stopEnvOk).1 =
      idsOf (runOps distinctOps) :=
  ⟨history_ids_nodup_of_distinct_starts.1 distinctOps (by decide),
   (history_ids_nodup_of_distinct_starts.2 (runOps distinctOps) stopEnvOk).1⟩

/-- C1 (counterexample): starting `p/r`, stopping it, and starting `p/r`
again yields a history carrying the identity `(p, r)` twice — the pair is
not unique within the history. -/
theorem history_ids_counterexample :
    idsOf (runOps dupOps) = [("p", "r"), ("p", "r")] ∧
    ¬ (idsOf (runOps dupOps)).Nodup := by
  decide

/-! ### C2: at most one active entry in the list view -/

theorem countP_le_one_of_nodup_map {α β : Type} (f : α → β) (p : α → Bool)
    (k : β) (hp : ∀ a, p a = true → f a = k) :
    ∀ l : List α, (l.map f).Nodup → l.countP p ≤ 1 := by
  intro l
  induction l with
  | nil => intro _; simp
  | cons x t ih =>
    intro h
    rw [List.map_cons, List.nodup_cons] at h
    rw [List.countP_cons]
    cases hx : p x with
    | false => simpa using ih h.2
    | true =>
      have hzero : t.countP p = 0 := by
        rw [List.countP_eq_zero]
        intro a ha hpa
        have h1 : f a = k := hp a hpa
        have h2 : f x = k := hp x hx
        exact h.1 (h2 ▸ h1 ▸ List.mem_map_of_mem f ha)
      simp [hzero]

theorem jsSliceLast_sublist (limit : Nat) (l : List α) :
    List.Sublist (jsSliceLast limit l) l := by
  by_cases h : limit = 0
  · simp [jsSliceLast, h]
  · simp only [jsSliceLast, if_neg h]
    exact List.drop_sublist _ _

theorem toViewEntry_status_active (s : SessionManager) (now : Nat)
    (e : HistoryEntry) :
    ((toViewEntry s now e).status == RecStatus.active) =
      matchesCurrent s e.projectId e.runId := by
  by_cases h : matchesCurrent s e.projectId e.runId = true
  · simp [toViewEntry, h]
  · simp only [Bool.not_eq_true] at h
    simp [toViewEntry, h]

theorem active_filter_le_one (s : SessionManager) (limit now : Nat)
    (h : (idsOf s).Nodup) :
    ((listRecordings s limit now).recordings.filter
      (fun v => v.status == RecStatus.active)).length ≤ 1 := by
  rw [listRecordings]
  simp only [List.filter_reverse, List.length_reverse, List.filter_map]
  rw [List.length_map]
  rw [← List.countP_eq_length_filter]
  have hcount : (jsSliceLast limit s.sessionHistory).countP
      (fun e => matchesCurrent s e.projectId e.runId) ≤ 1 := by
    cases hc : s.currentSession with
    | none =>
      have hz : (jsSliceLast limit s.sessionHistory).countP
          (fun e => matchesCurrent s e.projectId e.runId) = 0 := by
        rw [List.countP_eq_zero]
        intro a _ hpa
        simp [matchesCurrent, hc] at hpa
      omega
    | some cur =>
      have hsub : List.Sublist ((jsSliceLast limit s.sessionHistory).map entryId)
          (s.sessionHistory.map entryId) :=
        List.Sublist.map entryId (jsSliceLast_sublist limit s.sessionHistory)
      have hnd : ((jsSliceLast limit s.sessionHistory).map entryId).Nodup :=
        List.Nodup.sublist hsub h
      refine countP_le_one_of_nodup_map entryId
        (fun e => matchesCurrent s e.projectId e.runId)
        (cur.projectId, cur.runId) ?_ _ hnd
      intro a ha
      simp only [matchesCurrent, hc] at ha
      have h1 : cur.projectId = a.projectId ∧ cur.runId = a.runId := by
        simpa using ha
      simp [entryId, h1.1, h1.2]
  have heq : List.countP ((fun v => v.status == RecStatus.active) ∘ toViewEntry s now)
      (jsSliceLast limit s.sessionHistory) =
      (jsSliceLast limit s.sessionHistory).countP
        (fun e => matchesCurrent s e.projectId e.runId) := by
    refine List.countP_congr ?_
    intro e _
    show ((toViewEntry s now e).status == RecStatus.active) = true ↔ _
    rw [toViewEntry_status_active]
  rw [heq]
  exact hcount

/-- C2 (amended): for every sequence of start/stop/list calls in which no
two start calls carry the same effective `(projectId, runId)`, at most one
entry of the view returned by `listRecordings` has status `active` (and at
most one Session is held in the `currentSession` slot by construction).
Without that proviso the property fails, because every history entry whose
identity equals the active session's reports `active`. -/
theorem at_most_one_active_entry (ops : List Op) (limit now : Nat)
    (h : (traceIds ops).Nodup) :
    ((listRecordings (runOps ops) limit now).recordings.filter
      (fun v => v.status == RecStatus.active)).length ≤ 1 :=
  active_filter_le_one (runOps ops) limit now
    (List.Nodup.sublist (runOps_ids_sublist ops) h)

theorem at_most_one_active_entry_witness :
    ((listRecordings (runOps distinctOps) 10 100).recordings.filter
      (fun v => v.status == RecStatus.active)).length ≤ 1 :=
  at_most_one_active_entry distinctOps 10 100 (by decide)

/-- C2 (counterexample): after start `p/r`, stop, start `p/r` again, the
list view contains two entries with status `active` at the same instant. -/
theorem at_most_one_active_entry_counterexample :
    ((listRecordings (runOps dupOps) 10 100).recordings.filter
      (fun v => v.status == RecStatus.active)).length = 2 := by
  decide

/-! ### C7: the list view -/

/-- C7 (amended): for `limit ≥ 1`, `listRecordings` is a read-only view:
`total` is the full history length, the returned list holds the last
`min limit length` entries most-recent-first, each entry's status is
`active` exactly when its identity matches the current session, and its
duration is the fixed `endTime - startTime` when `endTime` is present (even
for an entry whose identity matches the active session, which the original
claim overlooked), the live `now - startTime` when it matches the current
session without an `endTime`, and absent otherwise. -/
theorem listRecordings_view (s : SessionManager) (limit now : Nat)
    (h : 1 ≤ limit) :
    (listRecordings s limit now).total = s.sessionHistory.length ∧
    (listRecordings s limit now).recordings.length =
      min limit s.sessionHistory.length ∧
    (listRecordings s limit now).recordings =
      ((s.sessionHistory.drop (s.sessionHistory.length - limit)).map
        (toViewEntry s now)).reverse ∧
    (∀ v ∈ (listRecordings s limit now).recordings,
      (v.status = RecStatus.active ↔
        matchesCurrent s v.projectId v.runId = true) ∧
      v.duration = (match v.endTime with
        | some t => some ((t : Int) - (v.startTime : Int))
        | none =>
          if matchesCurrent s v.projectId v.runId then
            some ((now : Int) - (v.startTime : Int))
          else none)) ∧
    step s (Op.list limit now) = s := by
  have hslice : jsSliceLast limit s.sessionHistory =
      s.sessionHistory.drop (s.sessionHistory.length - limit) := by
    rw [jsSliceLast, if_neg (by omega)]
  refine ⟨rfl, ?_, ?_, ?_, rfl⟩
  · simp only [listRecordings, hslice, List.length_reverse, List.length_map,
      List.length_drop]
    omega
  · simp [listRecordings, hslice]
  · intro v hv
    simp only [listRecordings, List.mem_reverse, List.mem_map] at hv
    obtain ⟨e, he, rfl⟩ := hv
    constructor
    · cases hm : matchesCurrent s e.projectId e.runId with
      | true => simp [toViewEntry, hm]
      | false => simp [toViewEntry, hm]
    · cases hend : e.endTime with
      | some t => simp [toViewEntry, hend]
      | none =>
        cases hm : matchesCurrent s e.projectId e.runId with
        | true => simp [toViewEntry, hend, hm]
        | false => simp [toViewEntry, hend, hm]

/-- Three completed sessions with distinct run identifiers. -/
def threeOps : List Op :=
  [Op.start "p" (some "r1") envStartA, Op.stop stopEnvOk,
   Op.start "p" (some "r2") envStartB, Op.stop { fin := finishEnvOk, now := 8 },
   Op.start "p" (some "r3")
     { genId := "g5", nowSession := 9, nowHistory := 10, startErr := none },
   Op.stop { fin := finishEnvOk, now := 12 }]

theorem listRecordings_view_witness :
    (listRecordings (runOps threeOps) 2 100).recordings.length =
      min 2 (runOps threeOps).sessionHistory.length ∧
    (listRecordings (runOps threeOps) 2 100).total = 3 ∧
    (listRecordings (runOps threeOps) 2 100).recordings.map
      RecordingView.runId = ["r3", "r2"] ∧
    (listRecordings (runOps threeOps) 2 100).recordings.map
      RecordingView.status = [RecStatus.completed, RecStatus.completed] :=
  ⟨(listRecordings_view (runOps threeOps) 2 100 (by decide)).2.1,
   by decide, by decide, by decide⟩

/-- C7 (counterexample to the live-duration clause): after start `p/r`,
stop at time 5, start `p/r` again, the view at time 100 contains an entry
whose status is `active` (its identity matches the current session) but
whose duration is the fixed `5 - 2 = 3`, not the live `100 - 2 = 98`. -/
theorem listRecordings_view_counterexample :
    ∃ v ∈ (listRecordings (runOps dupOps) 10 100).recordings,
      v.status = RecStatus.active ∧ v.endTime = some 5 ∧
      v.startTime = 2 ∧ v.duration = some 3 ∧ (3 : Int) ≠ (100 : Int) - 2 := by
  decide

/-! ### C10: stop targets the first matching entry, later duplicates stay bare -/

theorem finishRun_fst_ok (rc : RunCtx) (env : FinishEnv)
    (ht : env.traceStopErr = none) (hc : env.closeErr = none) :
    ∃ a, (finishRun rc env).1 = Except.ok a := by
  cases hb : (env.hasVideo && !env.videoPathThrows) with
  | true =>
    exact ⟨{ videoPath := some (rc.baseDir ++ "/video.webm"),
             harPath := rc.harPath, tracePath := rc.tracePath,
             publicVideoUrl := some (toPublicUrl (rc.baseDir ++ "/video.webm")),
             publicHarUrl := toPublicUrl rc.harPath,
             publicTraceUrl := toPublicUrl rc.tracePath },
           by simp [finishRun, ht, hc, hb]⟩
  | false =>
    exact ⟨{ videoPath := rc.videoPath,
             harPath := rc.harPath, tracePath := rc.tracePath,
             publicVideoUrl := Option.map toPublicUrl rc.videoPath,
             publicHarUrl := toPublicUrl rc.harPath,
             publicTraceUrl := toPublicUrl rc.tracePath },
           by simp [finishRun, ht, hc, hb]⟩

theorem updateFirstEntry_append (p r : String) (n : Nat) (a : Artifacts)
    (pre : List HistoryEntry) (m : HistoryEntry) (post : List HistoryEntry)
    (hpre : ∀ e ∈ pre, ¬(e.projectId = p ∧ e.runId = r))
    (hm : m.projectId = p ∧ m.runId = r) :
    updateFirstEntry p r n a (pre ++ m :: post) =
      pre ++ { m with endTime := some n, artifacts := some a } :: post := by
  induction pre with
  | nil => simp [updateFirstEntry, hm]
  | cons e t ih =>
    have hne := hpre e (List.mem_cons_self e t)
    rw [List.cons_append]
    rw [show updateFirstEntry p r n a (e :: (t ++ m :: post)) =
        e :: updateFirstEntry p r n a (t ++ m :: post) from by
      simp [updateFirstEntry, hne]]
    rw [ih (fun x hx => hpre x (List.mem_cons_of_mem e hx))]
    rfl

theorem mem_updateFirstEntry (p r : String) (n : Nat) (a : Artifacts)
    (x : HistoryEntry) :
    ∀ t : List HistoryEntry, x ∈ updateFirstEntry p r n a t →
      x ∈ t ∨ ∃ y ∈ t, y.projectId = p ∧ y.runId = r ∧
        x = { y with endTime := some n, artifacts := some a } := by
  intro t
  induction t with
  | nil => intro h; exact absurd h (List.not_mem_nil x)
  | cons e tt ih =>
    intro h
    by_cases hm : e.projectId = p ∧ e.runId = r
    · rw [show updateFirstEntry p r n a (e :: tt) =
          { e with endTime := some n, artifacts := some a } :: tt from by
        simp [updateFirstEntry, hm]] at h
      rcases List.mem_cons.1 h with h1 | h1
      · exact Or.inr ⟨e, List.mem_cons_self e tt, hm.1, hm.2, h1⟩
      · exact Or.inl (List.mem_cons_of_mem e h1)
    · rw [show updateFirstEntry p r n a (e :: tt) =
          e :: updateFirstEntry p r n a tt from by
        simp [updateFirstEntry, hm]] at h
      rcases List.mem_cons.1 h with h1 | h1
      · exact Or.inl (h1 ▸ List.mem_cons_self e tt)
      · rcases ih h1 with h2 | ⟨y, hy, hyp, hyr, hx⟩
        · exact Or.inl (List.mem_cons_of_mem e h2)
        · exact Or.inr ⟨y, List.mem_cons_of_mem e hy, hyp, hyr, hx⟩

theorem laterDupFree_append (l : List HistoryEntry) (x : HistoryEntry)
    (hx : x.endTime = none ∧ x.artifacts = none) :
    laterDupFree l = true → laterDupFree (l ++ [x]) = true := by
  induction l with
  | nil =>
    intro _
    simp [laterDupFree]
  | cons e t ih =>
    intro h
    simp only [laterDupFree, Bool.and_eq_true, List.all_eq_true] at h
    obtain ⟨h1, h2⟩ := h
    simp only [List.cons_append, laterDupFree, Bool.and_eq_true, List.all_eq_true]
    refine ⟨?_, ih h2⟩
    intro x2 hx2
    rcases List.mem_append.1 hx2 with hm | hm
    · exact h1 x2 hm
    · rw [List.mem_singleton] at hm
      subst hm
      by_cases hid : x2.projectId = e.projectId ∧ x2.runId = e.runId
      · simp [hid, hx.1, hx.2]
      · simp [hid]

theorem laterDupFree_update (p r : String) (n : Nat) (a : Artifacts) :
    ∀ l : List HistoryEntry, laterDupFree l = true →
      laterDupFree (updateFirstEntry p r n a l) = true := by
  intro l
  induction l with
  | nil => intro h; exact h
  | cons e t ih =>
    intro h
    simp only [laterDupFree, Bool.and_eq_true, List.all_eq_true] at h
    obtain ⟨h1, h2⟩ := h
    by_cases hm : e.projectId = p ∧ e.runId = r
    · rw [show updateFirstEntry p r n a (e :: t) =
          { e with endTime := some n, artifacts := some a } :: t from by
        simp [updateFirstEntry, hm]]
      simp only [laterDupFree, Bool.and_eq_true, List.all_eq_true]
      refine ⟨?_, h2⟩
      intro x hxm
      simpa using h1 x hxm
    · rw [show updateFirstEntry p r n a (e :: t) =
          e :: updateFirstEntry p r n a t from by
        simp [updateFirstEntry, hm]]
      simp only [laterDupFree, Bool.and_eq_true, List.all_eq_true]
      refine ⟨?_, ih h2⟩
      intro x hxm
      rcases mem_updateFirstEntry p r n a x t hxm with h3 | ⟨y, hy, hyp, hyr, hx⟩
      · exact h1 x h3
      · subst hx
        have hne : ¬(y.projectId = e.projectId ∧ y.runId = e.runId) := by
          intro hcontra
          exact hm ⟨hcontra.1 ▸ hyp, hcontra.2 ▸ hyr⟩
        simp [hne]

theorem step_laterDupFree (s : SessionManager) (op : Op)
    (h : laterDupFree s.sessionHistory = true) :
    laterDupFree (step s op).sessionHistory = true := by
  cases op with
  | start p r env =>
    cases hc : s.currentSession with
    | some cur => simpa [step, startRecordingSession, hc] using h
    | none =>
      cases he : env.startErr with
      | some e => simpa [step, startRecordingSession, hc, he] using h
      | none =>
        have h2 := laterDupFree_append s.sessionHistory
          { projectId := p, runId := effRunId r env, startTime := env.nowHistory,
            endTime := none, artifacts := none } ⟨rfl, rfl⟩ h
        simpa [step, startRecordingSession, hc, he] using h2
  | stop env =>
    cases hc : s.currentSession with
    | none => simpa [step, stopRecordingSession, hc] using h
    | some cur =>
      cases hf : finishRun cur.runCtx env.fin with
      | mk res rc1 =>
        cases res with
        | ok a =>
          have h2 := laterDupFree_update cur.projectId cur.runId env.now a
            s.sessionHistory h
          simpa [step, stopRecordingSession, hc, hf] using h2
        | error e => simpa [step, stopRecordingSession, hc, hf] using h
  | list limit now => exact h
  | getArtifacts p r => exact h

theorem foldl_laterDupFree (ops : List Op) :
    ∀ s : SessionManager, laterDupFree s.sessionHistory = true →
      laterDupFree (List.foldl step s ops).sessionHistory = true := by
  induction ops with
  | nil => intro s h; exact h
  | cons op rest ih => intro s h; exact ih (step s op) (step_laterDupFree s op h)

/-- C10: a successful stop writes `endTime` and `artifacts` onto the
*earliest* history entry matching the active identity (first-match scan),
leaving every other entry untouched; and along every call sequence, any
history entry preceded by an entry of the same identity permanently keeps
no `endTime` and no `artifacts`. -/
theorem stop_updates_first_match :
    (∀ (s : SessionManager) (cur : RecordingSession) (env : StopEnv)
        (pre post : List HistoryEntry) (m : HistoryEntry),
      s.currentSession = some cur →
      env.fin.traceStopErr = none → env.fin.closeErr = none →
      s.sessionHistory = pre ++ m :: post →
      (∀ e ∈ pre, ¬(e.projectId = cur.projectId ∧ e.runId = cur.runId)) →
      m.projectId = cur.projectId → m.runId = cur.runId →
      ∃ a, (finishRun cur.runCtx env.fin).1 = Except.ok a ∧
        (stopRecordingSession s env).2.success = true ∧
        (stopRecordingSession s env).1.sessionHistory =
          pre ++ { m with endTime := some env.now, artifacts := some a } :: post) ∧
    (∀ ops : List Op, laterDupFree (runOps ops).sessionHistory = true) := by
  constructor
  · intro s cur env pre post m hcur ht hc hhist hpre hmp hmr
    obtain ⟨a, ha⟩ := finishRun_fst_ok cur.runCtx env.fin ht hc
    cases hpr : finishRun cur.runCtx env.fin with
    | mk res rc1 =>
      rw [hpr] at ha
      have hres : res = Except.ok a := ha
      subst hres
      refine ⟨a, rfl, ?_, ?_⟩
      · simp [stopRecordingSession, hcur, hpr]
      · rw [show (stopRecordingSession s env).1.sessionHistory =
            updateFirstEntry cur.projectId cur.runId env.now a s.sessionHistory from by
          simp [stopRecordingSession, hcur, hpr]]
        rw [hhist]
        exact updateFirstEntry_append cur.projectId cur.runId env.now a
          pre m post hpre ⟨hmp, hmr⟩
  · intro ops
    exact foldl_laterDupFree ops initialManager rfl

theorem stop_updates_first_match_witness :
    (∃ a, (finishRun (startRun "p" "r") stopEnvOk.fin).1 = Except.ok a ∧
      (stopRecordingSession mgrActive stopEnvOk).2.success = true ∧
      (stopRecordingSession mgrActive stopEnvOk).1.sessionHistory =
        [] ++ { projectId := "p", runId := "r", startTime := 2,
                endTime := some stopEnvOk.now, artifacts := some a } :: []) ∧
    laterDupFree (runOps dupOps).sessionHistory = true :=
  ⟨stop_updates_first_match.1 mgrActive
    { projectId := "p", runId := "r", startTime := 1, runCtx := startRun "p" "r" }
    stopEnvOk [] []
    { projectId := "p", runId := "r", startTime := 2, endTime := none,
      artifacts := none }
    (by decide) rfl rfl (by decide)
    (fun e he => absurd he (List.not_mem_nil e)) rfl rfl,
   stop_updates_first_match.2 dupOps⟩

end PlaywrightRec
